import Mathlib

/-!
Verification of the cross-chain veToken balance synchronization subsystem
(`src/composables/cross-chain-sync/useCrossChainSync.ts`) against its
natural-language specification.  The reactive composable is embedded as
pure functions over an explicit state record; the `computed` projections
become plain definitions on that state.
-/

namespace CrossChainSync

/-- The network enum from `@/lib/config` restricted to the constructors the
composable mentions (MAINNET plus the four cross-chain-sync networks). -/
inductive Network where
  | MAINNET
  | POLYGON
  | ARBITRUM
  | GNOSIS
  | OPTIMISM
deriving DecidableEq, Repr

/-- `NetworkSyncState` enum from the source. -/
inductive NetworkSyncState where
  | Unsynced
  | Syncing
  | Synced
deriving DecidableEq, Repr

/-- `EscrowLockData`: the `{ bias, slope }` shape the classifier consumes. -/
structure EscrowLockData where
  bias : String
  slope : String
deriving DecidableEq, Repr

/-- Modelled from the spec: the helper `allEqual` from `@/lib/utils/array`
(that file is not part of the provided sources); per the spec's wording it
holds exactly when all elements of the list are pairwise equal. -/
def allEqual (xs : List String) : Bool :=
  match xs with
  | [] => true
  | x :: rest => rest.all (fun y => y == x)

/-- `allNetworks`: the networks supported by the cross-chain sync feature. -/
def allNetworks : List Network :=
  [Network.POLYGON, Network.ARBITRUM, Network.GNOSIS, Network.OPTIMISM]

/-- `LayerZeroNetworkId`: the bridge-identifier table from the source.  The
source object has entries only for POLYGON (109), ARBITRUM (110) and
OPTIMISM (111); indexing any other network yields `undefined`, embedded as
`none`. -/
def LayerZeroNetworkId (n : Network) : Option Nat :=
  match n with
  | Network.POLYGON => some 109
  | Network.ARBITRUM => some 110
  | Network.OPTIMISM => some 111
  | _ => none

/-- `getNetworkSyncState`: classifies a (bridged, canonical, secondary)
triple of lock records into a `NetworkSyncState`, exactly as in the source. -/
def getNetworkSyncState (omniEscrowData votingEscrowMainnet votingEscrowNetwork :
    EscrowLockData) : NetworkSyncState :=
  let biasOmniEscrow := omniEscrowData.bias
  let slopeOmniEscrow := omniEscrowData.slope
  let biasVotingEscrow := votingEscrowMainnet.bias
  let slopeVotingEscrow := votingEscrowMainnet.slope
  let biasVotingEscrowNetwork := votingEscrowNetwork.bias
  let slopeVotingEscrowNetwork := votingEscrowNetwork.slope
  let isSynced :=
    allEqual [biasOmniEscrow, biasVotingEscrow, biasVotingEscrowNetwork] &&
    allEqual [slopeOmniEscrow, slopeVotingEscrow, slopeVotingEscrowNetwork]
  let isSyncing :=
    allEqual [biasOmniEscrow, biasVotingEscrow] &&
    allEqual [slopeOmniEscrow, slopeVotingEscrow] &&
    (slopeOmniEscrow != slopeVotingEscrowNetwork) &&
    (biasOmniEscrow != biasVotingEscrowNetwork)
  if isSynced then NetworkSyncState.Synced
  else if isSyncing then NetworkSyncState.Syncing
  else NetworkSyncState.Unsynced

/-- A row of the bridge-mirror (omni voting escrow) query response. -/
structure OmniVotingEscrowLock where
  bias : String
  slope : String
  remoteUser : String
deriving DecidableEq, Repr

/-- A row of the canonical per-chain voting-escrow query response. -/
structure VotingEscrowLock where
  bias : String
  slope : String
  timestamp : Int
deriving DecidableEq, Repr

/-- The reactive inputs of `useCrossChainSync`: the data and loading flags of
the three queries.  `none` embeds an `undefined` response (query not yet
resolved); `some` carries the row list of a resolved response. -/
structure CrossChainState where
  omniEscrowResponse : Option (List OmniVotingEscrowLock)
  isLoadingOmniEscrow : Bool
  mainnetVotingEscrowResponse : Option (List VotingEscrowLock)
  isLoadingVotingEscrow : Bool
  arbitrumVotingEscrowResponse : Option (List VotingEscrowLock)
  isLoadingVotingEscrowArbitrum : Bool
deriving DecidableEq, Repr

/-- JavaScript truthiness of an optional string (`undefined` and the empty
string are falsy). -/
def truthyStr (o : Option String) : Bool :=
  match o with
  | none => false
  | some t => t ≠ ""

/-- `allNetworksUnsynced`: the bridge-mirror response resolved with zero
rows (`omniEscrowResponse.value?.omniVotingEscrowLocks.length === 0`). -/
def allNetworksUnsynced (s : CrossChainState) : Bool :=
  match s.omniEscrowResponse with
  | some locks => locks.length == 0
  | none => false

/-- `omniEscrowLocks`: `null` on the fast path, otherwise the first row of
the bridge-mirror response (or `undefined` while unresolved). -/
def omniEscrowLocks (s : CrossChainState) : Option OmniVotingEscrowLock :=
  if allNetworksUnsynced s then none
  else s.omniEscrowResponse.bind List.head?

/-- `remoteUser`: the remote-user field of the bridged lock, when present. -/
def remoteUser (s : CrossChainState) : Option String :=
  (omniEscrowLocks s).map OmniVotingEscrowLock.remoteUser

/-- `votingEscrowLocks`: the pair of first rows of the mainnet and arbitrum
canonical queries, `null` unless both are present. -/
def votingEscrowLocks (s : CrossChainState) :
    Option (VotingEscrowLock × VotingEscrowLock) :=
  match s.mainnetVotingEscrowResponse.bind List.head?,
      s.arbitrumVotingEscrowResponse.bind List.head? with
  | some m, some a => some (m, a)
  | _, _ => none

/-- `isLoading`: `false` on the fast path, otherwise the disjunction of the
three queries' loading flags. -/
def isLoading (s : CrossChainState) : Bool :=
  if allNetworksUnsynced s then false
  else s.isLoadingOmniEscrow || s.isLoadingVotingEscrow ||
    s.isLoadingVotingEscrowArbitrum

/-- `networksSyncState`: the per-network sync-state object, embedded as an
optional partial map from networks to states (`none` at a network means the
object has no key for it, an outer `none` means the computed returned
`null`). -/
def networksSyncState (s : CrossChainState) :
    Option (Network → Option NetworkSyncState) :=
  if allNetworksUnsynced s then
    some (fun n =>
      match n with
      | Network.ARBITRUM => some NetworkSyncState.Unsynced
      | Network.OPTIMISM => some NetworkSyncState.Unsynced
      | Network.GNOSIS => some NetworkSyncState.Unsynced
      | Network.POLYGON => some NetworkSyncState.Unsynced
      | _ => none)
  else if isLoading s then none
  else
    match omniEscrowLocks s, votingEscrowLocks s with
    | some omni, some (mainnet, arb) =>
        some (fun n =>
          if n = Network.ARBITRUM then
            some (getNetworkSyncState ⟨omni.bias, omni.slope⟩
              ⟨mainnet.bias, mainnet.slope⟩ ⟨arb.bias, arb.slope⟩)
          else none)
    | _, _ => none

/-- The universe of network keys the partition may enumerate over
(`Object.keys` of the sync-state object). -/
def networkKeys : List Network :=
  [Network.MAINNET, Network.OPTIMISM, Network.GNOSIS, Network.POLYGON,
    Network.ARBITRUM]

/-- The result shape of `networksBySyncState`.  The source returns the
`sincing` key only on the non-null branch, so it is embedded as an
`Option`; `none` means the key is absent from the returned object. -/
structure NetworksBySyncState where
  synced : List Network
  unsynced : List Network
  sincing : Option (List Network)
deriving DecidableEq, Repr

/-- The field names of the declared result interface
`NetworknetworksBySyncState` from the source (it declares only `synced`
and `unsynced`). -/
def NetworknetworksBySyncStateFields : List String :=
  ["synced", "unsynced"]

/-- `networksBySyncState`: partitions the keys of the sync-state object by
their classified state; on a `null` sync-state it returns the two-bucket
empty object without a `sincing` key. -/
def networksBySyncState (s : CrossChainState) : NetworksBySyncState :=
  match networksSyncState s with
  | none => ⟨[], [], none⟩
  | some m =>
      ⟨networkKeys.filter (fun n => m n == some NetworkSyncState.Synced),
       networkKeys.filter (fun n => m n == some NetworkSyncState.Unsynced),
       some (networkKeys.filter (fun n => m n == some NetworkSyncState.Syncing))⟩

/-- An arbitrary-precision decimal number as kept by the `bignumber.js`
objects the decay model builds: the rational `num / 10 ^ exp`. -/
structure BigNum where
  num : Int
  exp : Nat
deriving DecidableEq, Repr

/-- The rational value of a decimal number. -/
def BigNum.val (q : BigNum) : ℚ :=
  (q.num : ℚ) / (10 : ℚ) ^ q.exp

/-- `BigNumber.multipliedBy`: exact decimal multiplication. -/
def BigNum.multipliedBy (a b : BigNum) : BigNum :=
  ⟨a.num * b.num, a.exp + b.exp⟩

/-- `BigNumber.minus`: exact decimal subtraction (align to the larger
scale). -/
def BigNum.minus (a b : BigNum) : BigNum :=
  let e := max a.exp b.exp
  ⟨a.num * (10 : Int) ^ (e - a.exp) - b.num * (10 : Int) ^ (e - b.exp), e⟩

/-- A decimal number holding an integer. -/
def BigNum.ofInt (n : Int) : BigNum := ⟨n, 0⟩

/-- The numeric value of a list of decimal digit characters, `none` when the
list is empty or holds a non-digit. -/
def digitsVal? (cs : List Char) : Option Nat :=
  if cs.isEmpty then none
  else cs.foldlM (fun acc c =>
    if c.isDigit then some (acc * 10 + (c.toNat - 48)) else none) 0

/-- Splits a character list into the groups separated by decimal points
(the behaviour of splitting a string on `"."`). -/
def splitDot : List Char → List (List Char)
  | [] => [[]]
  | c :: rest =>
      if c = '.' then [] :: splitDot rest
      else
        match splitDot rest with
        | [] => [[c]]
        | g :: gs => (c :: g) :: gs

/-- The `BigNumber(string)` constructor on plain decimal literals: an
optional sign, an integer part, and an optional fractional part.  `none`
embeds the NaN result on other inputs. -/
def parseDec (s : String) : Option BigNum :=
  let signAndDigits : Bool × List Char :=
    match s.toList with
    | '-' :: rest => (true, rest)
    | cs => (false, cs)
  let neg := signAndDigits.1
  match splitDot signAndDigits.2 with
  | [intPart] => do
      let n ← digitsVal? intPart
      pure ⟨if neg then -(n : Int) else (n : Int), 0⟩
  | [intPart, fracPart] => do
      let n ← digitsVal? intPart
      let f ← digitsVal? fracPart
      let scale := fracPart.length
      let m : Nat := n * 10 ^ scale + f
      pure ⟨if neg then -(m : Int) else (m : Int), scale⟩
  | _ => none

/-- Integer division rounding half away from zero (the `ROUND_HALF_UP` mode
`bignumber.js` applies by default in `toFixed`). -/
def halfAwayDiv (n : Int) (d : Nat) : Int :=
  let q : Nat := (n.natAbs + d / 2) / d
  if n < 0 then -(q : Int) else (q : Int)

/-- The integer `v` such that `toFixed(4)` prints `v / 10^4`. -/
def BigNum.toFixedInt4 (q : BigNum) : Int :=
  if q.exp ≤ 4 then q.num * (10 : Int) ^ (4 - q.exp)
  else halfAwayDiv q.num (10 ^ (q.exp - 4))

/-- Renders the integer `v` as the fixed 4-decimal-place string for
`v / 10^4` (sign, integer part, dot, exactly four fraction digits). -/
def renderFixed4 (v : Int) : String :=
  let a := v.natAbs
  let fracStr := toString (a % 10000)
  let padded := String.mk (List.replicate (4 - fracStr.length) '0') ++ fracStr
  (if v < 0 then "-" else "") ++ toString (a / 10000) ++ "." ++ padded

/-- `BigNumber.toFixed(4)`: the decimal rendered to exactly four decimal
places. -/
def BigNum.toFixed4 (q : BigNum) : String :=
  renderFixed4 q.toFixedInt4

/-- Rounding a rational to the nearest integer, halves away from zero
(specification-side rounding, defined independently of the decimal
representation). -/
def roundHalfAway (x : ℚ) : Int :=
  if 0 ≤ x then ⌊x + 1 / 2⌋ else -⌊-x + 1 / 2⌋

/-- `calculateVeBAlBalance`: `bias - slope * (floor(Date.now()/1000) -
timestamp)` in exact decimal arithmetic, rendered via `toFixed(4)`.  The
wall clock is passed explicitly as `nowMs` (milliseconds); the source
truncates it to whole seconds.  `"NaN"` is returned when a decimal literal
does not parse, as `bignumber.js` would propagate. -/
def calculateVeBAlBalance (bias slope : String) (timestamp : Int)
    (nowMs : Nat) : String :=
  match parseDec bias, parseDec slope with
  | some b, some sl =>
      let nowSec : Int := (nowMs / 1000 : Nat)
      let x := sl.multipliedBy (BigNum.ofInt (nowSec - timestamp))
      (b.minus x).toFixed4
  | _, _ => "NaN"

/-- `l2VeBalBalances`: `null` until both canonical records are present,
otherwise an object holding the projected decay balance of the arbitrum
record under the ARBITRUM key only. -/
def l2VeBalBalances (s : CrossChainState) (nowMs : Nat) :
    Option (Network → Option String) :=
  match votingEscrowLocks s with
  | none => none
  | some (_, arb) =>
      some (fun n =>
        if n = Network.ARBITRUM then
          some (calculateVeBAlBalance arb.bias arb.slope arb.timestamp nowMs)
        else none)

/-- One external bridge-contract call made by `sync`. -/
inductive SyncStep where
  | estimate (chainId : Option Nat)
  | send (chainId : Option Nat) (fee : Nat)
deriving DecidableEq, Repr

/-- The environment `sync` runs against: the configured bridge contract
address and the outcome fee estimation would produce if called. -/
structure SyncEnv where
  contractAddress : Option String
  estimateResult : Except String Nat
deriving Repr

/-- `sync(network)`: throws synchronously when no contract address is
configured (truthiness check), otherwise estimates the fee and then sends;
a rejected estimation propagates and the send is not attempted.  Returns
the outcome together with the trace of bridge-contract calls made. -/
def sync (env : SyncEnv) (network : Network) :
    Except String Nat × List SyncStep :=
  if truthyStr env.contractAddress then
    let cid := LayerZeroNetworkId network
    match env.estimateResult with
    | Except.error e => (Except.error e, [SyncStep.estimate cid])
    | Except.ok nativeFee =>
        (Except.ok nativeFee,
          [SyncStep.estimate cid, SyncStep.send cid nativeFee])
  else (Except.error "No contract address found", [])

/-- One data fetch issued by `refetch`. -/
inductive FetchCall where
  | omniEscrow
  | votingEscrowMainnet
  | votingEscrowArbitrum
deriving DecidableEq, Repr

/-- `refetch()`: the trace of fetches as (phase, fetcher) pairs.  Phase 0
holds the two fetches issued concurrently inside `Promise.all`; phase 1
runs after both settle and holds the conditional arbitrum fetch, issued
exactly when `remoteUser` is truthy at call time. -/
def refetch (s : CrossChainState) : List (Nat × FetchCall) :=
  [(0, FetchCall.omniEscrow), (0, FetchCall.votingEscrowMainnet)] ++
    (if truthyStr (remoteUser s) then [(1, FetchCall.votingEscrowArbitrum)]
     else [])

/-- A fully resolved, non-fast-path state: one bridged row and one canonical
row per chain, nothing loading. -/
def sampleState : CrossChainState :=
  ⟨some [⟨"10", "1", "0xuser"⟩], false, some [⟨"10", "1", 1000⟩], false,
    some [⟨"5", "0.5", 900⟩], false⟩

end CrossChainSync

namespace CrossChainSync

/-- C1: if all three bias values are pairwise equal and all three slope
values are pairwise equal, the classifier returns `Synced`. -/
theorem getNetworkSyncState_synced (omni mainnet network : EscrowLockData)
    (hb1 : omni.bias = mainnet.bias) (hb2 : mainnet.bias = network.bias)
    (hs1 : omni.slope = mainnet.slope) (hs2 : mainnet.slope = network.slope) :
    getNetworkSyncState omni mainnet network = NetworkSyncState.Synced := by
  simp [getNetworkSyncState, allEqual, hb1, hb2, hs1, hs2]

/-- Witness for C1: the all-equal triple ("10","1") classifies as `Synced`. -/
theorem getNetworkSyncState_synced_witness :
    getNetworkSyncState ⟨"10", "1"⟩ ⟨"10", "1"⟩ ⟨"10", "1"⟩ =
      NetworkSyncState.Synced :=
  getNetworkSyncState_synced ⟨"10", "1"⟩ ⟨"10", "1"⟩ ⟨"10", "1"⟩
    rfl rfl rfl rfl

/-- C2: if the bridged record equals the canonical record in both fields and
the secondary record differs from the bridged record in BOTH fields, the
classifier returns `Syncing`. -/
theorem getNetworkSyncState_syncing (omni mainnet network : EscrowLockData)
    (hb : omni.bias = mainnet.bias) (hs : omni.slope = mainnet.slope)
    (hnb : omni.bias ≠ network.bias) (hns : omni.slope ≠ network.slope) :
    getNetworkSyncState omni mainnet network = NetworkSyncState.Syncing := by
  simp [getNetworkSyncState, allEqual, hb, hs]
  rw [← hb, ← hs]
  simp [bne_iff_ne, (Ne.symm hnb), (Ne.symm hns), hnb, hns]

/-- Witness for C2: bridged "10"/"1", canonical "10"/"1", secondary
"5"/"0.5" classifies as `Syncing` (the spec's scenario). -/
theorem getNetworkSyncState_syncing_witness :
    getNetworkSyncState ⟨"10", "1"⟩ ⟨"10", "1"⟩ ⟨"5", "0.5"⟩ =
      NetworkSyncState.Syncing :=
  getNetworkSyncState_syncing ⟨"10", "1"⟩ ⟨"10", "1"⟩ ⟨"5", "0.5"⟩
    rfl rfl (by decide) (by decide)

/-- C3: if the bridged record equals the canonical record in both fields but
the secondary record differs in exactly one of the two fields, the
classifier returns `Unsynced`, not `Syncing`. -/
theorem getNetworkSyncState_oneField_unsynced
    (omni mainnet network : EscrowLockData)
    (hb : omni.bias = mainnet.bias) (hs : omni.slope = mainnet.slope)
    (hone : (omni.bias ≠ network.bias ∧ omni.slope = network.slope) ∨
            (omni.bias = network.bias ∧ omni.slope ≠ network.slope)) :
    getNetworkSyncState omni mainnet network = NetworkSyncState.Unsynced := by
  obtain ⟨bo, so⟩ := omni
  obtain ⟨bm, sm⟩ := mainnet
  obtain ⟨bn, sn⟩ := network
  simp only at hb hs hone
  subst hb; subst hs
  rcases hone with ⟨hnb, hns⟩ | ⟨hnb, hns⟩
  · subst hns
    simp [getNetworkSyncState, allEqual, beq_iff_eq, Ne.symm hnb]
  · subst hnb
    simp [getNetworkSyncState, allEqual, beq_iff_eq, Ne.symm hns]

/-- Witness for C3: bridged "10"/"1", canonical "10"/"1", secondary "5"/"1"
(bias differs, slope equal) classifies as `Unsynced`. -/
theorem getNetworkSyncState_oneField_unsynced_witness :
    getNetworkSyncState ⟨"10", "1"⟩ ⟨"10", "1"⟩ ⟨"5", "1"⟩ =
      NetworkSyncState.Unsynced :=
  getNetworkSyncState_oneField_unsynced ⟨"10", "1"⟩ ⟨"10", "1"⟩ ⟨"5", "1"⟩
    rfl rfl (Or.inl ⟨by decide, rfl⟩)

/-- C4: when the bridge-mirror fetch resolves with zero rows, `isLoading` is
`false` and the sync-state mapping reports `Unsynced` for all four
participating networks, regardless of the other queries' data or loading
flags. -/
theorem emptyBridged_allUnsynced (s : CrossChainState)
    (h : s.omniEscrowResponse = some []) :
    isLoading s = false ∧
    ∃ m, networksSyncState s = some m ∧
      ∀ n ∈ allNetworks, m n = some NetworkSyncState.Unsynced := by
  have hfast : allNetworksUnsynced s = true := by
    simp [allNetworksUnsynced, h]
  refine ⟨by simp [isLoading, hfast],
    (fun n =>
      match n with
      | Network.ARBITRUM => some NetworkSyncState.Unsynced
      | Network.OPTIMISM => some NetworkSyncState.Unsynced
      | Network.GNOSIS => some NetworkSyncState.Unsynced
      | Network.POLYGON => some NetworkSyncState.Unsynced
      | _ => none), ?_, ?_⟩
  · simp [networksSyncState, hfast]
  · intro n hn
    fin_cases hn <;> rfl

/-- Witness for C4: a state with an empty bridged record set, both other
queries still loading with no data, reports all four networks `Unsynced`
and is not loading. -/
theorem emptyBridged_allUnsynced_witness :
    isLoading ⟨some [], true, none, true, none, true⟩ = false ∧
    ∃ m, networksSyncState ⟨some [], true, none, true, none, true⟩ = some m ∧
      ∀ n ∈ allNetworks, m n = some NetworkSyncState.Unsynced :=
  emptyBridged_allUnsynced ⟨some [], true, none, true, none, true⟩ rfl

/-- C10: with a non-empty bridged record set, while anything is loading or
a lock record is absent the sync-state mapping is `null` and the partition
is the two-bucket empty object without a `sincing` key; whenever the
mapping is non-null the partition carries a `sincing` bucket, a key absent
from the declared result interface. -/
theorem nonEmptyBridged_partition (s : CrossChainState)
    (l : List OmniVotingEscrowLock) (hr : s.omniEscrowResponse = some l)
    (hl : l ≠ []) :
    ((isLoading s = true ∨ omniEscrowLocks s = none ∨
        votingEscrowLocks s = none) →
      networksSyncState s = none ∧
      networksBySyncState s = ⟨[], [], none⟩) ∧
    (networksSyncState s ≠ none →
      ∃ ls, (networksBySyncState s).sincing = some ls) ∧
    "sincing" ∉ NetworknetworksBySyncStateFields := by
  have hfast : allNetworksUnsynced s = false := by
    simp [allNetworksUnsynced, hr, List.length_eq_zero]
    exact hl
  have key : (isLoading s = true ∨ omniEscrowLocks s = none ∨
      votingEscrowLocks s = none) → networksSyncState s = none := by
    intro hdisj
    rcases hdisj with hL | hO | hV
    · simp [networksSyncState, hfast, hL]
    · cases hIs : isLoading s <;>
        simp [networksSyncState, hfast, hIs, hO]
    · cases hIs : isLoading s <;> cases hO2 : omniEscrowLocks s <;>
        simp [networksSyncState, hfast, hIs, hO2, hV]
  refine ⟨fun hdisj => ⟨key hdisj, ?_⟩, ?_, ?_⟩
  · simp [networksBySyncState, key hdisj]
  · intro hne
    cases hm : networksSyncState s with
    | none => exact absurd hm hne
    | some m =>
        exact ⟨networkKeys.filter
          (fun n => m n == some NetworkSyncState.Syncing),
          by simp [networksBySyncState, hm]⟩
  · simp [NetworknetworksBySyncStateFields]

/-- Witness for C10: a state with one bridged row whose canonical queries
are unresolved has a `null` sync-state mapping and the keyless-`sincing`
empty partition. -/
theorem nonEmptyBridged_partition_witness :
    ((isLoading ⟨some [⟨"10", "1", "0xuser"⟩], false, none, true, none,
        true⟩ = true ∨
      omniEscrowLocks ⟨some [⟨"10", "1", "0xuser"⟩], false, none, true,
        none, true⟩ = none ∨
      votingEscrowLocks ⟨some [⟨"10", "1", "0xuser"⟩], false, none, true,
        none, true⟩ = none) →
      networksSyncState ⟨some [⟨"10", "1", "0xuser"⟩], false, none, true,
        none, true⟩ = none ∧
      networksBySyncState ⟨some [⟨"10", "1", "0xuser"⟩], false, none, true,
        none, true⟩ = ⟨[], [], none⟩) ∧
    (networksSyncState ⟨some [⟨"10", "1", "0xuser"⟩], false, none, true,
        none, true⟩ ≠ none →
      ∃ ls, (networksBySyncState ⟨some [⟨"10", "1", "0xuser"⟩], false, none,
        true, none, true⟩).sincing = some ls) ∧
    "sincing" ∉ NetworknetworksBySyncStateFields :=
  nonEmptyBridged_partition
    ⟨some [⟨"10", "1", "0xuser"⟩], false, none, true, none, true⟩
    [⟨"10", "1", "0xuser"⟩] rfl (List.cons_ne_nil _ _)

/-- C7 counterexample: Gnosis participates in cross-chain sync but the
bridge-identifier table has no entry for it. -/
theorem layerZeroNetworkId_gnosis_missing :
    Network.GNOSIS ∈ allNetworks ∧
    LayerZeroNetworkId Network.GNOSIS = none := by
  decide

/-- C7 amended: the bridge-identifier table is defined exactly for Polygon
(109), Arbitrum (110), and Optimism (111); the participating network
Gnosis has no identifier, nor does mainnet. -/
theorem layerZeroNetworkId_table :
    LayerZeroNetworkId Network.POLYGON = some 109 ∧
    LayerZeroNetworkId Network.ARBITRUM = some 110 ∧
    LayerZeroNetworkId Network.OPTIMISM = some 111 ∧
    LayerZeroNetworkId Network.GNOSIS = none ∧
    LayerZeroNetworkId Network.MAINNET = none := by
  decide

/-- C6 counterexample: in a fully resolved non-fast-path state the
sync-state mapping and the balance mapping carry no entry for Polygon (nor
Gnosis or Optimism), refuting that every participating network is
covered. -/
theorem exposure_polygon_missing :
    allNetworksUnsynced sampleState = false ∧
    isLoading sampleState = false ∧
    (∃ m, networksSyncState sampleState = some m ∧
      m Network.POLYGON = none) ∧
    ∃ b, l2VeBalBalances sampleState 0 = some b ∧
      b Network.POLYGON = none := by
  exact ⟨rfl, rfl, ⟨_, rfl, rfl⟩, ⟨_, rfl, rfl⟩⟩

/-- C6 corrected: outside the fast path, once nothing is loading and the
bridged and both canonical records are present, the reconciler exposes a
sync state and a projected decay balance for Arbitrum only, each computed
from the arbitrum records; no other network has an entry. -/
theorem arbitrumOnly_exposure (s : CrossChainState)
    (hfast : allNetworksUnsynced s = false) (hload : isLoading s = false)
    (omni : OmniVotingEscrowLock) (mainnet arb : VotingEscrowLock)
    (hO : omniEscrowLocks s = some omni)
    (hV : votingEscrowLocks s = some (mainnet, arb)) :
    (∃ m, networksSyncState s = some m ∧
      m Network.ARBITRUM = some (getNetworkSyncState
        ⟨omni.bias, omni.slope⟩ ⟨mainnet.bias, mainnet.slope⟩
        ⟨arb.bias, arb.slope⟩) ∧
      ∀ n, n ≠ Network.ARBITRUM → m n = none) ∧
    ∀ nowMs, ∃ b, l2VeBalBalances s nowMs = some b ∧
      b Network.ARBITRUM = some (calculateVeBAlBalance arb.bias arb.slope
        arb.timestamp nowMs) ∧
      ∀ n, n ≠ Network.ARBITRUM → b n = none := by
  constructor
  · refine ⟨(fun n =>
      if n = Network.ARBITRUM then
        some (getNetworkSyncState ⟨omni.bias, omni.slope⟩
          ⟨mainnet.bias, mainnet.slope⟩ ⟨arb.bias, arb.slope⟩)
      else none), by simp [networksSyncState, hfast, hload, hO, hV],
      ?_, ?_⟩
    · simp
    · intro n hn
      simp [hn]
  · intro nowMs
    refine ⟨(fun n =>
      if n = Network.ARBITRUM then
        some (calculateVeBAlBalance arb.bias arb.slope arb.timestamp nowMs)
      else none), by simp [l2VeBalBalances, hV], ?_, ?_⟩
    · simp
    · intro n hn
      simp [hn]

/-- Witness for C6 (corrected): the resolved sample state exposes exactly
the arbitrum entries. -/
theorem arbitrumOnly_exposure_witness :
    (∃ m, networksSyncState sampleState = some m ∧
      m Network.ARBITRUM = some (getNetworkSyncState
        ⟨"10", "1"⟩ ⟨"10", "1"⟩ ⟨"5", "0.5"⟩) ∧
      ∀ n, n ≠ Network.ARBITRUM → m n = none) ∧
    ∀ nowMs, ∃ b, l2VeBalBalances sampleState nowMs = some b ∧
      b Network.ARBITRUM = some (calculateVeBAlBalance "5" "0.5" 900
        nowMs) ∧
      ∀ n, n ≠ Network.ARBITRUM → b n = none :=
  arbitrumOnly_exposure sampleState rfl rfl
    ⟨"10", "1", "0xuser"⟩ ⟨"10", "1", 1000⟩ ⟨"5", "0.5", 900⟩ rfl rfl

/-- C8: `refetch` issues exactly one bridge-mirror fetch and one
canonical-chain fetch, both in the concurrent first phase, and issues
exactly one secondary-network fetch — in the later phase — precisely when
`remoteUser` is resolved (truthy) at call time. -/
theorem refetch_contract (s : CrossChainState) :
    ((refetch s).filter (fun c => c.2 == FetchCall.omniEscrow)) =
      [(0, FetchCall.omniEscrow)] ∧
    ((refetch s).filter (fun c => c.2 == FetchCall.votingEscrowMainnet)) =
      [(0, FetchCall.votingEscrowMainnet)] ∧
    ((refetch s).filter (fun c => c.2 == FetchCall.votingEscrowArbitrum)) =
      (if truthyStr (remoteUser s) then
        [(1, FetchCall.votingEscrowArbitrum)]
       else []) ∧
    (∀ p ∈ refetch s, p.2 = FetchCall.votingEscrowArbitrum → p.1 = 1) ∧
    (∀ p ∈ refetch s, p.2 ≠ FetchCall.votingEscrowArbitrum → p.1 = 0) := by
  cases h : truthyStr (remoteUser s) <;>
    simp [refetch, h]

/-- Witness for C8: with a resolved remote user the secondary fetch is
issued in the second phase; the two unconditional fetches are issued once
each in the first phase. -/
theorem refetch_contract_witness :
    ((refetch ⟨some [⟨"10", "1", "0xremote"⟩], false, none, false, none,
        false⟩).filter (fun c => c.2 == FetchCall.omniEscrow)) =
      [(0, FetchCall.omniEscrow)] ∧
    ((refetch ⟨some [⟨"10", "1", "0xremote"⟩], false, none, false, none,
        false⟩).filter (fun c => c.2 == FetchCall.votingEscrowMainnet)) =
      [(0, FetchCall.votingEscrowMainnet)] ∧
    ((refetch ⟨some [⟨"10", "1", "0xremote"⟩], false, none, false, none,
        false⟩).filter (fun c => c.2 == FetchCall.votingEscrowArbitrum)) =
      (if truthyStr (remoteUser ⟨some [⟨"10", "1", "0xremote"⟩], false,
          none, false, none, false⟩) then
        [(1, FetchCall.votingEscrowArbitrum)]
       else []) ∧
    (∀ p ∈ refetch ⟨some [⟨"10", "1", "0xremote"⟩], false, none, false,
        none, false⟩,
      p.2 = FetchCall.votingEscrowArbitrum → p.1 = 1) ∧
    (∀ p ∈ refetch ⟨some [⟨"10", "1", "0xremote"⟩], false, none, false,
        none, false⟩,
      p.2 ≠ FetchCall.votingEscrowArbitrum → p.1 = 0) :=
  refetch_contract
    ⟨some [⟨"10", "1", "0xremote"⟩], false, none, false, none, false⟩

/-- C9: `sync` fails synchronously with no bridge-contract call when the
configured contract address is absent; when fee estimation rejects, its
error propagates and the send is never attempted; on success estimation
and send happen in sequence. -/
theorem sync_contract (env : SyncEnv) (network : Network) :
    (truthyStr env.contractAddress = false →
      (sync env network).1 = Except.error "No contract address found" ∧
      (sync env network).2 = []) ∧
    (∀ e, truthyStr env.contractAddress = true →
      env.estimateResult = Except.error e →
      (sync env network).1 = Except.error e ∧
      (sync env network).2 =
        [SyncStep.estimate (LayerZeroNetworkId network)]) ∧
    (∀ e, env.estimateResult = Except.error e →
      ∀ cid fee, SyncStep.send cid fee ∉ (sync env network).2) ∧
    (∀ fee, truthyStr env.contractAddress = true →
      env.estimateResult = Except.ok fee →
      (sync env network).1 = Except.ok fee ∧
      (sync env network).2 =
        [SyncStep.estimate (LayerZeroNetworkId network),
         SyncStep.send (LayerZeroNetworkId network) fee]) := by
  refine ⟨?_, ?_, ?_, ?_⟩
  · intro h
    simp [sync, h]
  · intro e h he
    simp [sync, h, he]
  · intro e he cid fee
    cases h : truthyStr env.contractAddress <;> simp [sync, h, he]
  · intro fee h hok
    simp [sync, h, hok]

/-- Witness for C9: with a configured address and a rejecting fee
estimation, `sync` propagates the estimation error and the call trace
holds the estimation only — no send. -/
theorem sync_contract_witness :
    (sync ⟨some "0xabc", Except.error "fee estimation failed"⟩
        Network.ARBITRUM).1 =
      Except.error "fee estimation failed" ∧
    (sync ⟨some "0xabc", Except.error "fee estimation failed"⟩
        Network.ARBITRUM).2 =
      [SyncStep.estimate (LayerZeroNetworkId Network.ARBITRUM)] :=
  (sync_contract ⟨some "0xabc", Except.error "fee estimation failed"⟩
      Network.ARBITRUM).2.1
    "fee estimation failed" (by decide) rfl

theorem BigNum.val_multipliedBy (a b : BigNum) :
    (a.multipliedBy b).val = a.val * b.val := by
  simp only [BigNum.val, BigNum.multipliedBy]
  push_cast
  rw [pow_add]
  ring

theorem pow_div_shift (m : ℤ) (k e : ℕ) (hk : k ≤ e) :
    (m : ℚ) * (10 : ℚ) ^ (e - k) / (10 : ℚ) ^ e = (m : ℚ) / (10 : ℚ) ^ k := by
  rw [div_eq_div_iff (by positivity) (by positivity), mul_assoc, ← pow_add,
    Nat.sub_add_cancel hk]

theorem BigNum.val_minus (a b : BigNum) :
    (a.minus b).val = a.val - b.val := by
  simp only [BigNum.val, BigNum.minus]
  push_cast
  rw [sub_div, pow_div_shift a.num a.exp _ (le_max_left _ _),
    pow_div_shift b.num b.exp _ (le_max_right _ _)]

theorem BigNum.val_ofInt (n : Int) : (BigNum.ofInt n).val = (n : ℚ) := by
  simp [BigNum.val, BigNum.ofInt]

theorem floor_half : ⌊(1 / 2 : ℚ)⌋ = 0 := by
  rw [Int.floor_eq_zero_iff]
  constructor <;> norm_num

theorem roundHalfAway_intCast (m : ℤ) : roundHalfAway (m : ℚ) = m := by
  unfold roundHalfAway
  split
  · rw [add_comm, Int.floor_add_int, floor_half, zero_add]
  · have : -(m : ℚ) = ((-m : ℤ) : ℚ) := by push_cast; ring
    rw [this, add_comm, Int.floor_add_int, floor_half, zero_add, neg_neg]

theorem floor_add_half (a d h : ℕ) (hh : 0 < h) (hd : d = 2 * h) :
    ⌊(a : ℚ) / (d : ℚ) + 1 / 2⌋ = (((a + h) / d : ℕ) : ℤ) := by
  have hq : (h : ℚ) ≠ 0 := by exact_mod_cast hh.ne'
  have key : (a : ℚ) / (d : ℚ) + 1 / 2 = (((a + h : ℕ) : ℚ)) / ((d : ℕ) : ℚ) := by
    subst hd
    push_cast
    field_simp
    ring
  rw [key, Rat.floor_natCast_div_natCast]
  exact (Int.ofNat_tdiv _ _).symm

theorem halfAwayDiv_eq (n : ℤ) (d : ℕ) (hpos : 0 < d) (heven : d % 2 = 0) :
    halfAwayDiv n d = roundHalfAway ((n : ℚ) / (d : ℚ)) := by
  have hdvd : 2 ∣ d := Nat.dvd_of_mod_eq_zero heven
  obtain ⟨h, hd⟩ := hdvd
  have hh : 0 < h := by omega
  have hdq : (0 : ℚ) < (d : ℚ) := by exact_mod_cast hpos
  have hhalf : d / 2 = h := by omega
  rcases le_or_lt 0 n with hn | hn
  · have habs : ((n.natAbs : ℚ)) = (n : ℚ) := by
      rw [Int.cast_natAbs]
      exact_mod_cast abs_of_nonneg hn
    have hx : 0 ≤ (n : ℚ) / (d : ℚ) := by
      have hnq : (0 : ℚ) ≤ (n : ℚ) := by exact_mod_cast hn
      positivity
    unfold halfAwayDiv roundHalfAway
    rw [if_neg (by omega), if_pos hx, hhalf, ← habs,
      floor_add_half n.natAbs d h hh hd]
  · have hneg : (n : ℚ) < 0 := by exact_mod_cast hn
    have habs : ((n.natAbs : ℚ)) = -(n : ℚ) := by
      rw [Int.cast_natAbs]
      exact_mod_cast abs_of_neg hn
    have hx : ¬ 0 ≤ (n : ℚ) / (d : ℚ) :=
      not_le.mpr (div_neg_of_neg_of_pos hneg hdq)
    unfold halfAwayDiv roundHalfAway
    rw [if_pos (by omega), if_neg hx, hhalf]
    have hrw : -((n : ℚ) / (d : ℚ)) = (n.natAbs : ℚ) / (d : ℚ) := by
      rw [habs]
      ring
    rw [hrw, floor_add_half n.natAbs d h hh hd]

theorem toFixedInt4_eq (q : BigNum) :
    q.toFixedInt4 = roundHalfAway (q.val * 10 ^ 4) := by
  unfold BigNum.toFixedInt4
  split
  · rename_i hle
    have hv : q.val * 10 ^ 4 = ((q.num * (10 : ℤ) ^ (4 - q.exp) : ℤ) : ℚ) := by
      simp only [BigNum.val]
      push_cast
      rw [div_mul_eq_mul_div,
        div_eq_iff (by positivity : (0 : ℚ) < (10 : ℚ) ^ q.exp).ne',
        mul_assoc, ← pow_add, Nat.sub_add_cancel hle]
    rw [hv, roundHalfAway_intCast]
  · rename_i hlt
    have hkpos : q.exp - 4 ≠ 0 := by omega
    have hdvd : (2 : ℕ) ∣ 10 ^ (q.exp - 4) :=
      dvd_trans (by norm_num) (dvd_pow_self 10 hkpos)
    have hv : q.val * 10 ^ 4 = (q.num : ℚ) / ((10 ^ (q.exp - 4) : ℕ) : ℚ) := by
      simp only [BigNum.val]
      push_cast
      rw [div_mul_eq_mul_div, div_eq_div_iff (by positivity) (by positivity),
        mul_assoc, ← pow_add]
      have h44 : 4 + (q.exp - 4) = q.exp := by omega
      rw [h44]
    rw [hv, halfAwayDiv_eq q.num _ (by positivity)
      (Nat.dvd_iff_mod_eq_zero.mp hdvd)]

theorem calculateVeBAlBalance_eq (bias slope : String) (b sl : BigNum)
    (hb : parseDec bias = some b) (hs : parseDec slope = some sl)
    (timestamp : Int) (nowMs : Nat) :
    calculateVeBAlBalance bias slope timestamp nowMs =
      renderFixed4 (roundHalfAway
        ((b.val - sl.val *
          (((nowMs / 1000 : Nat) : ℚ) - (timestamp : ℚ))) * 10 ^ 4)) := by
  unfold calculateVeBAlBalance
  rw [hb, hs]
  simp only [BigNum.toFixed4]
  rw [toFixedInt4_eq]
  congr 2
  rw [BigNum.val_minus, BigNum.val_multipliedBy, BigNum.val_ofInt,
    Int.cast_sub, Int.cast_natCast]

/-- C5: the decay model computes `bias - slope * (now_seconds - timestamp)`
in exact decimal arithmetic — `now_seconds` being the millisecond clock
truncated to whole seconds — and renders the result as a fixed
4-decimal-place string; it yields `"90.0000"` for bias "100", slope "1",
timestamp now-10; `"50.0000"` for bias "50", slope "0" at any timestamp;
and negative balances are not clamped to zero. -/
theorem calculateVeBAlBalance_spec :
    (∀ bias slope : String, ∀ b sl : BigNum,
      parseDec bias = some b → parseDec slope = some sl →
      ∀ timestamp : Int, ∀ nowMs : Nat,
      calculateVeBAlBalance bias slope timestamp nowMs =
        renderFixed4 (roundHalfAway
          ((b.val - sl.val *
            (((nowMs / 1000 : Nat) : ℚ) - (timestamp : ℚ))) * 10 ^ 4))) ∧
    (∀ nowMs : Nat,
      calculateVeBAlBalance "100" "1"
        (((nowMs / 1000 : Nat) : Int) - 10) nowMs = "90.0000") ∧
    (∀ timestamp : Int, ∀ nowMs : Nat,
      calculateVeBAlBalance "50" "0" timestamp nowMs = "50.0000") ∧
    calculateVeBAlBalance "100" "1" (-100) 100000 = "-100.0000" := by
  refine ⟨fun bias slope b sl hb hs ts nowMs =>
    calculateVeBAlBalance_eq bias slope b sl hb hs ts nowMs, ?_, ?_, ?_⟩
  · intro nowMs
    rw [calculateVeBAlBalance_eq "100" "1" ⟨100, 0⟩ ⟨1, 0⟩ rfl rfl _ nowMs]
    have hval : (((⟨100, 0⟩ : BigNum)).val - ((⟨1, 0⟩ : BigNum)).val *
        (((nowMs / 1000 : Nat) : ℚ) -
          ((((nowMs / 1000 : Nat) : Int) - 10 : Int) : ℚ))) * 10 ^ 4 =
        ((900000 : ℤ) : ℚ) := by
      generalize (nowMs / 1000 : Nat) = k
      simp only [BigNum.val]
      push_cast
      ring
    rw [hval, roundHalfAway_intCast]
    decide
  · intro ts nowMs
    rw [calculateVeBAlBalance_eq "50" "0" ⟨50, 0⟩ ⟨0, 0⟩ rfl rfl ts nowMs]
    have hval : (((⟨50, 0⟩ : BigNum)).val - ((⟨0, 0⟩ : BigNum)).val *
        (((nowMs / 1000 : Nat) : ℚ) - (ts : ℚ))) * 10 ^ 4 =
        ((500000 : ℤ) : ℚ) := by
      simp only [BigNum.val]
      push_cast
      ring
    rw [hval, roundHalfAway_intCast]
    decide
  · decide

/-- Witness for C5: the general formula applied at bias "100", slope "1",
timestamp 0, clock 10000 ms. -/
theorem calculateVeBAlBalance_spec_witness :
    calculateVeBAlBalance "100" "1" 0 10000 =
      renderFixed4 (roundHalfAway
        (((BigNum.val ⟨100, 0⟩) - (BigNum.val ⟨1, 0⟩) *
          (((10000 / 1000 : Nat) : ℚ) - ((0 : Int) : ℚ))) * 10 ^ 4)) :=
  calculateVeBAlBalance_spec.1 "100" "1" ⟨100, 0⟩ ⟨1, 0⟩ rfl rfl 0 10000

end CrossChainSync

